import Mathlib

/-!
Verification development for the `Tools/ExcelExporter/excel_to_unity.py`
export pipeline.  The script reads spreadsheet workbooks, infers a C#-style
primitive type per column, converts every row to a JSON document of shape
`{"items": [...]}` with PascalCase field names, and emits generated C#
accessor code whose initialization indexes rows by a best-effort "Id" field.

Modelling conventions:
* Cell values (`PyVal`) mirror the Python scalars seen by the script:
  `None`, `bool`, `int`, `float`, `str`.  Python floats are modelled as exact
  rationals (`Rat`); the script performs no floating-point arithmetic — it
  only parses, carries and re-prints numeric values — so the rational model
  is faithful for every decimal value handled by the claims.  `str` of a
  float is rendered as its decimal expansion (matching Python's `repr` on
  ordinary decimal values; exotic magnitudes that Python prints in exponent
  notation are outside the claims).
* Python `int(s)` / `float(s)` string parsing is modelled on the usual
  sign/digits/dot/exponent forms (numeric-literal underscores and the
  non-finite spellings `inf`/`nan` are not modelled; no claim touches them).
* Dictionaries are modelled as insertion-ordered association lists with
  update-in-place semantics (`dictUpsert`), matching CPython dicts.
-/

set_option maxRecDepth 4000

namespace ExcelExport

/-- A Python scalar value as stored in a worksheet cell / row dict. -/
inductive PyVal where
  | none
  | pbool (b : Bool)
  | pint (n : Int)
  | pfloat (q : Rat)
  | pstr (s : String)
  deriving DecidableEq, Repr

/-- The four C# primitive type names produced by `to_csharp_type`. -/
inductive CType where
  | int
  | float
  | bool
  | string
  deriving DecidableEq, Repr

/-- A JSON value as produced by the conversion loop in `main`
(lines 536-574): Python `int`, `float`, `bool` or `str` passed to
`json.dumps`. -/
inductive JVal where
  | jint (n : Int)
  | jfloat (q : Rat)
  | jbool (b : Bool)
  | jstr (s : String)
  deriving DecidableEq, Repr

/-- Python `str.strip()`: drop leading and trailing whitespace. -/
def pyStrip (s : String) : String :=
  String.mk
    (((s.toList.dropWhile Char.isWhitespace).reverse.dropWhile
        Char.isWhitespace).reverse)

/-- Python `str.lower()` (ASCII). -/
def strToLower (s : String) : String :=
  String.mk (s.toList.map Char.toLower)

/-- Python `c in s` for a single character. -/
def strHasChar (s : String) (c : Char) : Bool :=
  s.toList.contains c

/-- Numeric value of a list of decimal digit characters. -/
def digitsToNat (cs : List Char) : Nat :=
  cs.foldl (fun a c => a * 10 + (c.toNat - 48)) 0

/-- Parse a nonempty all-digit character list. -/
def parseDigits (cs : List Char) : Option Nat :=
  if cs ≠ [] ∧ cs.all Char.isDigit then some (digitsToNat cs) else Option.none

/-- Model of Python `int(s)` on a string: strip whitespace, optional sign,
then decimal digits; anything else raises `ValueError` (here: `none`). -/
def pyParseInt (s : String) : Option Int :=
  match (pyStrip s).toList with
  | '+' :: rest => (parseDigits rest).map Int.ofNat
  | '-' :: rest => (parseDigits rest).map (fun n => -(Int.ofNat n))
  | cs => (parseDigits cs).map Int.ofNat

/-- Split a character list at the first character satisfying `p`; the second
component is `none` when no such character occurs. -/
def splitFirst (p : Char → Bool) : List Char → List Char × Option (List Char)
  | [] => ([], Option.none)
  | c :: rest =>
    if p c then ([], some rest)
    else
      let r := splitFirst p rest
      (c :: r.1, r.2)

/-- Parse an exponent part (optional sign then digits, no padding). -/
def parseExp (cs : List Char) : Option Int :=
  match cs with
  | '+' :: rest => (parseDigits rest).map Int.ofNat
  | '-' :: rest => (parseDigits rest).map (fun n => -(Int.ofNat n))
  | _ => (parseDigits cs).map Int.ofNat

/-- Parse an unsigned float mantissa `digits[.digits]` (at least one digit in
total) into numerator and number of fractional digits. -/
def parseMantissa (cs : List Char) : Option (Nat × Nat) :=
  let sp := splitFirst (fun c => c = '.') cs
  let ip := sp.1
  let fp := (sp.2).getD []
  if ip.all Char.isDigit ∧ fp.all Char.isDigit ∧ (ip ≠ [] ∨ fp ≠ []) then
    some (digitsToNat (ip ++ fp), fp.length)
  else Option.none

/-- Build the rational value `m * 10 ^ (e - flen)` of a parsed mantissa
(digit value `m`, `flen` fractional digits) and exponent `e`. -/
def decValue (m : Nat) (flen : Nat) (e : Int) : Rat :=
  if 0 ≤ e - (flen : Int) then mkRat (m * 10 ^ (e - (flen : Int)).toNat) 1
  else mkRat m (10 ^ ((flen : Int) - e).toNat)

/-- Model of Python `float(s)` on a string (finite decimal/exponent forms):
strip whitespace, optional sign, mantissa, optional `e`/`E` exponent. -/
def pyParseFloat (s : String) : Option Rat :=
  let go : List Char → Option Rat := fun cs =>
    let se := splitFirst (fun c => c = 'e' ∨ c = 'E') cs
    let expPart : Option Int :=
      match se.2 with
      | Option.none => some 0
      | some ecs => parseExp ecs
    match parseMantissa se.1, expPart with
    | some mf, some e => some (decValue mf.1 mf.2 e)
    | _, _ => Option.none
  match (pyStrip s).toList with
  | '+' :: rest => go rest
  | '-' :: rest => (go rest).map Rat.neg
  | cs => go cs

/-- Fractional decimal digits of `r / d`, stopping when the remainder hits 0
or after `fuel` digits (truncation; the fuel is never reached for the decimal
values the pipeline handles). -/
def fracDigits (r d : Nat) : Nat → List Nat
  | 0 => []
  | fuel + 1 =>
    if r = 0 then []
    else (r * 10) / d :: fracDigits ((r * 10) % d) d fuel

/-- Decimal rendering of a Python float value, as `repr`/`str` print it for
ordinary decimal values: integer part, a dot, and at least one fractional
digit (`150.0`, `1.5`, `0.25`). -/
def pyFloatRepr (q : Rat) : String :=
  let sign := if q.num < 0 then "-" else ""
  let n := q.num.natAbs
  let d := q.den
  let frac := fracDigits (n % d) d 40
  let fracStr := if frac = [] then "0" else String.join (frac.map (fun k => toString k))
  sign ++ toString (n / d) ++ "." ++ fracStr

/-- Model of Python `str(value)` on the scalar values the script handles. -/
def pyStr : PyVal → String
  | PyVal.none => "None"
  | PyVal.pbool b => if b then "True" else "False"
  | PyVal.pint n => toString n
  | PyVal.pfloat q => pyFloatRepr q
  | PyVal.pstr s => s

/-- Python truthiness of a cell value (`if cell.value`). -/
def pyTruthy : PyVal → Bool
  | PyVal.none => false
  | PyVal.pbool b => b
  | PyVal.pint n => n ≠ 0
  | PyVal.pfloat q => q ≠ 0
  | PyVal.pstr s => s ≠ ""

/-- Truncation toward zero, as Python `int(float)` (a rational is negative
exactly when its numerator is, the denominator being positive). -/
def ratTrunc (q : Rat) : Int :=
  if q.num < 0 then -(Rat.floor (Rat.neg q)) else Rat.floor q

/-- Model of Python `int(value)` over script values; `none` models the
`ValueError`/`TypeError` caught by the conversion loop. -/
def pyInt : PyVal → Option Int
  | PyVal.none => Option.none
  | PyVal.pbool b => some (if b then 1 else 0)
  | PyVal.pint n => some n
  | PyVal.pfloat q => some (ratTrunc q)
  | PyVal.pstr s => pyParseInt s

/-- Model of Python `float(value)` over script values. -/
def pyFloat : PyVal → Option Rat
  | PyVal.none => Option.none
  | PyVal.pbool b => some (if b then 1 else 0)
  | PyVal.pint n => some (Rat.ofInt n)
  | PyVal.pfloat q => some q
  | PyVal.pstr s => pyParseFloat s

/-- Embedding of `to_csharp_type` (excel_to_unity.py lines 29-66): map a
single cell value to a C# primitive type name, trying native bool, native
int, native float, then on the stripped text: empty → string, textual
true/false → bool, parseable int → int, parseable float → float, else
string.  The first argument mirrors the (unused) `excel_type` parameter. -/
def toCsharpType (excelType : String) (value : PyVal) : CType :=
  match value with
  | PyVal.none => CType.string
  | PyVal.pbool _ => CType.bool
  | PyVal.pint _ => CType.int
  | PyVal.pfloat _ => CType.float
  | PyVal.pstr s =>
    let vs := pyStrip s
    if vs = "" then CType.string
    else if strToLower vs = "true" ∨ strToLower vs = "false" then CType.bool
    else if (pyParseInt vs).isSome then CType.int
    else if (pyParseFloat vs).isSome then CType.float
    else CType.string

/-- Split a string into its maximal alphanumeric runs (the word-splitting
loop of `to_pascal_case`, lines 434-452). -/
def splitAlnum (s : String) : List String :=
  let step : List String × String → Char → List String × String := fun acc c =>
    if c.isAlphanum then (acc.1, acc.2.push c)
    else if acc.2 ≠ "" then (acc.1 ++ [acc.2], "") else acc
  let r := s.toList.foldl step ([], "")
  if r.2 ≠ "" then r.1 ++ [r.2] else r.1

/-- Python `str.capitalize`: first character upper-cased, the rest
lower-cased. -/
def pyCapitalize (w : String) : String :=
  match w.toList with
  | [] => ""
  | c :: rest => String.mk (c.toUpper :: rest.map Char.toLower)

/-- Embedding of `to_pascal_case` (lines 434-452). -/
def toPascalCase (name : String) : String :=
  let parts := splitAlnum name
  let parts := if parts = [] then [name] else parts
  String.join (parts.map pyCapitalize)

/-- Insertion-ordered dictionary update, as CPython `d[k] = v`: an existing
key keeps its position and gets the new value, a fresh key is appended. -/
def dictUpsert {κ α : Type} [DecidableEq κ] (d : List (κ × α)) (k : κ) (v : α) :
    List (κ × α) :=
  if k ∈ d.map Prod.fst then d.map (fun p => if p.1 = k then (k, v) else p)
  else d ++ [(k, v)]

/-- Dictionary lookup (`d.get(k)` / `d[k]`), first matching key. -/
def dictFind {κ α : Type} [DecidableEq κ] (d : List (κ × α)) (k : κ) : Option α :=
  (d.find? (fun p => decide (p.1 = k))).map Prod.snd

/-- A row dict as built by `parse_excel_file`: header name → cell value. -/
abbrev Row := List (String × PyVal)

/-- A worksheet: its name and its cell grid (row-major; missing trailing
cells of a row read as empty, matching openpyxl's `None`). -/
structure Sheet where
  name : String
  cells : List (List PyVal)
  deriving DecidableEq, Repr

/-- The parsed form of one populated sheet (lines 117-121). -/
structure Table where
  headers : List String
  data : List Row
  deriving DecidableEq, Repr

/-- Cell access `ws.cell(row, column)` with 0-based indices; absent cells
are empty (`None`). -/
def cellAt (s : Sheet) (r c : Nat) : PyVal :=
  (s.cells.getD r []).getD c PyVal.none

/-- Number of columns of the sheet (openpyxl `max_column`). -/
def maxCol (s : Sheet) : Nat :=
  s.cells.foldl (fun m row => Nat.max m row.length) 0

/-- Header extraction (lines 89-93): for each cell of row 1, the stripped
string form when the cell value is truthy, else the placeholder
`Column<n>` with the 1-based column number. -/
def headersOf (s : Sheet) : List String :=
  (List.range (maxCol s)).map (fun c =>
    let v := cellAt s 0 c
    if pyTruthy v then pyStrip (pyStr v) else "Column" ++ toString (c + 1))

/-- Per-cell normalization when building a row dict (lines 103-111):
`None` stays `None`, numeric and boolean values are kept, anything else is
`str(value).strip()`. -/
def parseCellVal : PyVal → PyVal
  | PyVal.none => PyVal.none
  | PyVal.pint n => PyVal.pint n
  | PyVal.pfloat q => PyVal.pfloat q
  | PyVal.pbool b => PyVal.pbool b
  | PyVal.pstr s => PyVal.pstr (pyStrip s)

/-- The row-building loop of `parse_excel_file` (lines 97-111): walk the
headers left to right, reading the cell in the corresponding column of row
`r` and assigning it into the row dict. -/
def parseRowAux (s : Sheet) (r : Nat) : List String → Nat → Row → Row
  | [], _, acc => acc
  | h :: hs, c, acc =>
    parseRowAux s r hs (c + 1) (dictUpsert acc h (parseCellVal (cellAt s r c)))

/-- Row dict for 0-based sheet row `r`. -/
def parseRow (headers : List String) (s : Sheet) (r : Nat) : Row :=
  parseRowAux s r headers 0 []

/-- Blank-row test (line 114): some value is non-`None` with nonempty
stripped string form. -/
def rowNonBlank (row : Row) : Bool :=
  row.any (fun p => p.2 ≠ PyVal.none ∧ pyStrip (pyStr p.2) ≠ "")

/-- The materialized, blank-filtered data rows of a sheet
(lines 96-115). -/
def sheetDataRows (s : Sheet) : List Row :=
  ((List.range (s.cells.length - 1)).map
    (fun i => parseRow (headersOf s) s (i + 1))).filter rowNonBlank

/-- Embedding of the per-sheet part of `parse_excel_file` (lines 82-121):
sheets with fewer than two rows are skipped, and a sheet whose data rows
are all blank yields no table. -/
def parseSheet (s : Sheet) : Option Table :=
  if s.cells.length < 2 then Option.none
  else if sheetDataRows s ≠ [] then some ⟨headersOf s, sheetDataRows s⟩
  else Option.none

/-- Embedding of `parse_excel_file` over a whole workbook: the dict of
populated sheets, keyed by sheet name in sheet order. -/
def parseWorkbook (sheets : List Sheet) : List (String × Table) :=
  sheets.filterMap (fun s => (parseSheet s).map (fun t => (s.name, t)))

/-- The first value of column `header` that is non-`None` with nonempty
stripped string form (the outer loop of lines 516-533). -/
def firstNonEmptyValue (header : String) (data : List Row) : Option PyVal :=
  data.findSome? (fun row =>
    let v := (dictFind row header).getD PyVal.none
    if v ≠ PyVal.none ∧ pyStrip (pyStr v) ≠ "" then some v else Option.none)

/-- The int→float promotion scan (lines 522-532): some row of the column
has a non-`None` value whose string form parses as a float and contains a
decimal point. -/
def hasDotFloat (header : String) (data : List Row) : Bool :=
  data.any (fun row =>
    let v := (dictFind row header).getD PyVal.none
    v ≠ PyVal.none ∧ (pyParseFloat (pyStr v)).isSome ∧ strHasChar (pyStr v) '.')

/-- Column type inference of `main` (lines 514-534, identical to the logic
in `generate_csharp_class`): the type of the first non-empty value, with
`int` promoted to `float` when the promotion scan fires; `string` when the
column has no non-empty value. -/
def inferFieldType (header : String) (data : List Row) : CType :=
  match firstNonEmptyValue header data with
  | Option.none => CType.string
  | some v =>
    let t := toCsharpType header v
    if t = CType.int ∧ hasDotFloat header data then CType.float else t

/-- The `field_types_map` dict of `main` (lines 514-534). -/
def fieldTypesMap (headers : List String) (data : List Row) :
    List (String × CType) :=
  headers.foldl (fun acc h => dictUpsert acc h (inferFieldType h data)) []

/-- Conversion of one cell to its emitted JSON value (lines 543-573):
`None` becomes the type's default; otherwise int/float columns coerce via
`int()`/`float()` with a zero fallback on failure, bool columns keep native
booleans and otherwise test the lowercased string form against
`true`/`1`/`yes`, and string columns take `str(value)`. -/
def convertValue (ct : CType) (v : PyVal) : JVal :=
  match v with
  | PyVal.none =>
    match ct with
    | CType.int => JVal.jint 0
    | CType.float => JVal.jfloat 0
    | CType.bool => JVal.jbool false
    | CType.string => JVal.jstr ""
  | _ =>
    match ct with
    | CType.int =>
      match pyInt v with
      | some n => JVal.jint n
      | Option.none => JVal.jint 0
    | CType.float =>
      match pyFloat v with
      | some q => JVal.jfloat q
      | Option.none => JVal.jfloat 0
    | CType.bool =>
      match v with
      | PyVal.pbool b => JVal.jbool b
      | _ => JVal.jbool (strToLower (pyStr v) ∈ ["true", "1", "yes"])
    | CType.string => JVal.jstr (pyStr v)

/-- Conversion of one row dict to its emitted JSON object (lines 536-574):
iterate the row's entries, PascalCase the field name, convert the value by
the column's inferred type (`string` when the header is unknown). -/
def convertRow (ftm : List (String × CType)) (row : Row) :
    List (String × JVal) :=
  row.foldl
    (fun acc p =>
      dictUpsert acc (toPascalCase p.1)
        (convertValue ((dictFind ftm p.1).getD CType.string) p.2)) []

/-- Conversion of all data rows of a table. -/
def convertTable (ftm : List (String × CType)) (data : List Row) :
    List (List (String × JVal)) :=
  data.map (convertRow ftm)

/-- The per-file export loop of `main` (lines 499-500 and 607): each
populated sheet yields a table named `<stem>_<sheet>` when the file has
more than one populated sheet, and `<stem>` alone otherwise. -/
def exportEntries (stem : String) (wb : List Sheet) :
    List (String × Table) :=
  let tables := parseWorkbook wb
  tables.map (fun p =>
    (if tables.length > 1 then stem ++ "_" ++ p.1 else stem, p.2))

/-- JSON string escaping as `json.dumps` performs it (quote, backslash and
control characters; other characters pass through, `ensure_ascii=False`). -/
def jsonEscapeChar (c : Char) : String :=
  if c = '"' then "\\\""
  else if c = '\\' then "\\\\"
  else if c = '\n' then "\\n"
  else if c = '\t' then "\\t"
  else if c = '\r' then "\\r"
  else if c.toNat < 32 then
    let hex := Nat.toDigits 16 c.toNat
    "\\u" ++ String.mk (List.replicate (4 - hex.length) '0') ++ String.mk hex
  else String.singleton c

/-- Escape a whole string for JSON output. -/
def jsonEscape (s : String) : String :=
  String.join (s.toList.map jsonEscapeChar)

/-- Rendering of a single JSON scalar as `json.dumps` prints it. -/
def renderJVal : JVal → String
  | JVal.jint n => toString n
  | JVal.jfloat q => pyFloatRepr q
  | JVal.jbool b => if b then "true" else "false"
  | JVal.jstr s => "\"" ++ jsonEscape s ++ "\""

/-- Rendering of one row object at array-element depth, `indent=2` style. -/
def renderRowObj (r : List (String × JVal)) : String :=
  if r = [] then "\x7b\x7d"
  else
    "\x7b\n" ++
      String.intercalate ",\n"
        (r.map (fun p =>
          "      \"" ++ jsonEscape p.1 ++ "\": " ++ renderJVal p.2)) ++
      "\n    \x7d"

/-- Rendering of the whole `{"items": [...]}` document as
`json.dumps(json_data, ensure_ascii=False, indent=2)` (lines 581-585). -/
def renderDoc (rows : List (List (String × JVal))) : String :=
  if rows = [] then "\x7b\n  \"items\": []\n\x7d"
  else
    "\x7b\n  \"items\": [\n" ++
      String.intercalate ",\n" (rows.map (fun r => "    " ++ renderRowObj r)) ++
      "\n  ]\n\x7d"

/-- The serialized document text emitted for one table. -/
def exportDoc (headers : List String) (data : List Row) : String :=
  renderDoc (convertTable (fieldTypesMap headers data) data)

/-- A deserialized record at runtime: field name → field value, in class
field order (the converted row of the emitted document). -/
abbrev Item := List (String × JVal)

/-- C# `ToString()` of a boxed field value (`int`, `float`, `bool` or
`string`): floats drop an integral `.0`, booleans print `True`/`False`. -/
def csToString : JVal → String
  | JVal.jint n => toString n
  | JVal.jfloat q => if q.den = 1 then toString q.num else pyFloatRepr q
  | JVal.jbool b => if b then "True" else "False"
  | JVal.jstr s => s

/-- C# `int.TryParse`: optional surrounding whitespace, sign and digits,
within the `Int32` range. -/
def csTryParseInt (s : String) : Option Int :=
  match pyParseInt s with
  | some n =>
    if -2147483648 ≤ n ∧ n ≤ 2147483647 then some n else Option.none
  | Option.none => Option.none

/-- Substring containment, C# `String.Contains`. -/
def strContainsSub (s sub : String) : Bool :=
  (List.range (s.toList.length + 1)).any
    (fun i => sub.toList.isPrefixOf (s.toList.drop i))

/-- The value checks of `GetIdValue` applied to one field value
(generated manager template, excel_to_unity.py lines 336-344): parse the
`ToString` form and accept a nonzero result. -/
def idParse (v : JVal) : Option Int :=
  match csTryParseInt (csToString v) with
  | some p => if p ≠ 0 then some p else Option.none
  | Option.none => Option.none

/-- One field's id candidate: a native nonzero `int` field value is taken
directly, anything else goes through the parse path. -/
def idCandidate (v : JVal) : Option Int :=
  match v with
  | JVal.jint n => if n ≠ 0 then some n else idParse v
  | _ => idParse v

/-- The id field names probed by the generated `GetIdValue`
(line 332). -/
def idFieldNames : List String :=
  ["Id", "ID", "id", "iD", "ID_", "Id_", "id_"]

/-- Embedding of the generated manager's `GetIdValue` (lines 325-364):
probe the standard id field names, then any field whose name equals `Id`
case-insensitively or whose lowercased name contains `id`; each candidate
must be a nonzero int (natively or after `int.TryParse`). -/
def getIdValue (item : Item) : Option Int :=
  match idFieldNames.findSome? (fun nm => (dictFind item nm).bind idCandidate) with
  | some n => some n
  | Option.none =>
    item.findSome? (fun p =>
      if strToLower p.1 = "id" ∨ strContainsSub (strToLower p.1) "id" then
        idCandidate p.2
      else Option.none)

/-- One iteration of the generated `Initialize` loop (lines 274-292): the
item is appended to the list, and indexed in the id dictionary when
`GetIdValue` yields a (necessarily nonzero) id. -/
def initStep (acc : List Item × List (Int × Item)) (item : Item) :
    List Item × List (Int × Item) :=
  let l := acc.1 ++ [item]
  match getIdValue item with
  | some id => if id ≠ 0 then (l, dictUpsert acc.2 id item) else (l, acc.2)
  | Option.none => (l, acc.2)

/-- Embedding of the generated `Initialize` loop for one table
(lines 272-292): every non-null item is appended to the list, and indexed
in the id dictionary when `GetIdValue` yields a nonzero id. -/
def initTable (items : List Item) : List Item × List (Int × Item) :=
  items.foldl initStep ([], [])

/-- Modelled from the spec wording of C4 (the rule order of type
inference): native boolean, then native numeric (integer before
floating-point), then the texts `true`/`false` case-insensitively, then a
string parseable as an integer, then a string parseable as a float, else
text.  Textual checks read the cell text modulo surrounding whitespace. -/
def specRuleOrderType : PyVal → CType
  | PyVal.pbool _ => CType.bool
  | PyVal.pint _ => CType.int
  | PyVal.pfloat _ => CType.float
  | PyVal.pstr s =>
    let t := pyStrip s
    if strToLower t = "true" ∨ strToLower t = "false" then CType.bool
    else if (pyParseInt t).isSome then CType.int
    else if (pyParseFloat t).isSome then CType.float
    else CType.string
  | PyVal.none => CType.string

/-- The zero value of each inferred column type, as the spec words it:
`0`, `0.0`, `false`, empty text. -/
def zeroJVal : CType → JVal
  | CType.int => JVal.jint 0
  | CType.float => JVal.jfloat 0
  | CType.bool => JVal.jbool false
  | CType.string => JVal.jstr ""

/-- First-occurrence deduplication with a seed (key order of repeated dict
assignment). -/
def keyFold (l : List String) (init : List String) : List String :=
  l.foldl (fun ks k => if k ∈ ks then ks else ks ++ [k]) init

/-- First-occurrence deduplication of a key list. -/
def dedupFirst (l : List String) : List String :=
  keyFold l []

/-- The emitted field-name list of every row of a table, as a function of
the header list alone. -/
def pascalFieldOrder (headers : List String) : List String :=
  dedupFirst ((dedupFirst headers).map toPascalCase)

/-- JSON type tag of an emitted value. -/
inductive JTag where
  | tint
  | tfloat
  | tbool
  | tstr
  deriving DecidableEq, Repr

/-- Tag of a JSON value. -/
def jtagOf : JVal → JTag
  | JVal.jint _ => JTag.tint
  | JVal.jfloat _ => JTag.tfloat
  | JVal.jbool _ => JTag.tbool
  | JVal.jstr _ => JTag.tstr

/-- The JSON type that matches each inferred column type. -/
def ctypeTag : CType → JTag
  | CType.int => JTag.tint
  | CType.float => JTag.tfloat
  | CType.bool => JTag.tbool
  | CType.string => JTag.tstr

/-- Every converted cell value carries the JSON tag of its column type. -/
theorem convertValue_tag (ct : CType) (v : PyVal) :
    jtagOf (convertValue ct v) = ctypeTag ct := by
  cases v <;> cases ct <;>
    simp only [convertValue, jtagOf, ctypeTag] <;>
    first
      | rfl
      | (rename_i x
         try cases pyInt (PyVal.pstr x) <;> rfl
         try cases pyFloat (PyVal.pstr x) <;> rfl)

/-- Helper: the int branch of `convertValue` always yields `jint`. -/
theorem convertValue_int_shape (v : PyVal) :
    ∃ n : Int, convertValue CType.int v = JVal.jint n := by
  cases v <;> simp only [convertValue]
  case none => exact ⟨0, rfl⟩
  all_goals first
    | exact ⟨_, rfl⟩
    | (rename_i x
       cases h : pyInt (PyVal.pstr x) <;> simp [h])

/-- Helper: the float branch of `convertValue` always yields `jfloat`. -/
theorem convertValue_float_shape (v : PyVal) :
    ∃ q : Rat, convertValue CType.float v = JVal.jfloat q := by
  cases v <;> simp only [convertValue]
  case none => exact ⟨0, rfl⟩
  all_goals first
    | exact ⟨_, rfl⟩
    | (rename_i x
       cases h : pyFloat (PyVal.pstr x) <;> simp [h])

/-- C2: an absent cell value is emitted as the zero value of the column's
inferred type: `0` for int, `0.0` for float, `false` for bool, and the
empty string for text. -/
theorem claim_C2 : ∀ ct : CType, convertValue ct PyVal.none = zeroJVal ct := by
  intro ct
  cases ct <;> rfl

/-- C4: `to_csharp_type` applies its rules in the claimed order and returns
the first match — native boolean, native int, native float, textual
true/false (case-insensitive), parseable integer, parseable float, and
otherwise text — as captured by the spec-side `specRuleOrderType`. -/
theorem claim_C4 (et : String) (v : PyVal) :
    toCsharpType et v = specRuleOrderType v := by
  cases v with
  | pstr s =>
    simp only [toCsharpType, specRuleOrderType]
    by_cases h0 : pyStrip s = ""
    · rw [if_pos h0, h0]
      decide
    · rw [if_neg h0]
  | _ => rfl

/-- C10: in a boolean column, a non-empty non-native-boolean value is
emitted as `true` exactly when its lowercased string form is `true`, `1`
or `yes`, and as `false` otherwise. -/
theorem claim_C10 (v : PyVal) (h1 : v ≠ PyVal.none)
    (h2 : ∀ b, v ≠ PyVal.pbool b) :
    (convertValue CType.bool v = JVal.jbool true ↔
      strToLower (pyStr v) ∈ ["true", "1", "yes"]) ∧
    (convertValue CType.bool v = JVal.jbool false ↔
      strToLower (pyStr v) ∉ ["true", "1", "yes"]) := by
  cases v with
  | none => exact absurd rfl h1
  | pbool b => exact absurd rfl (h2 b)
  | pint n => constructor <;> simp [convertValue]
  | pfloat q => constructor <;> simp [convertValue]
  | pstr s => constructor <;> simp [convertValue]

/-- C10 witness: the value `yes` in a boolean column is emitted as
`true`. -/
theorem claim_C10_witness :
    convertValue CType.bool (PyVal.pstr "yes") = JVal.jbool true :=
  (claim_C10 (PyVal.pstr "yes") (by decide) (by intro b; cases b <;> decide)).1.mpr
    (by decide)

/-- C6: a non-empty cell value that is incompatible with its column's
inferred type never raises: int columns fall back to `0` when `int()`
fails, float columns to `0.0` when `float()` fails, bool columns to
`false` when the value is no recognized truthy form, string columns take
the value's string form; and conversion processes every row (no row is
dropped by a failed cell). -/
theorem claim_C6 (v : PyVal) (hv : v ≠ PyVal.none) :
    (pyInt v = Option.none → convertValue CType.int v = JVal.jint 0) ∧
    (pyFloat v = Option.none → convertValue CType.float v = JVal.jfloat 0) ∧
    ((∀ b, v ≠ PyVal.pbool b) → strToLower (pyStr v) ∉ ["true", "1", "yes"] →
      convertValue CType.bool v = JVal.jbool false) ∧
    convertValue CType.string v = JVal.jstr (pyStr v) ∧
    (∀ (ftm : List (String × CType)) (data : List Row),
      (convertTable ftm data).length = data.length) := by
  refine ⟨?_, ?_, ?_, ?_, ?_⟩
  · intro h
    cases v <;> simp_all [convertValue, pyInt]
  · intro h
    cases v <;> simp_all [convertValue, pyFloat]
  · intro hb hm
    cases v with
    | none => exact absurd rfl hv
    | pbool b => exact absurd rfl (hb b)
    | pint n => simp_all [convertValue]
    | pfloat q => simp_all [convertValue]
    | pstr s => simp_all [convertValue]
  · cases v <;> first | exact absurd rfl hv | rfl
  · intro ftm data
    simp [convertTable]

/-- C6 witness: the non-numeric text `abc` in each kind of column. -/
theorem claim_C6_witness :
    convertValue CType.int (PyVal.pstr "abc") = JVal.jint 0 ∧
    convertValue CType.float (PyVal.pstr "abc") = JVal.jfloat 0 ∧
    convertValue CType.bool (PyVal.pstr "abc") = JVal.jbool false ∧
    convertValue CType.string (PyVal.pstr "abc") = JVal.jstr "abc" := by
  have h := claim_C6 (PyVal.pstr "abc") (by decide)
  exact ⟨h.1 (by decide), h.2.1 (by decide),
    h.2.2.1 (by intro b; cases b <;> decide) (by decide), h.2.2.2.1⟩

/-- C1 counterexample: a column whose first non-empty value is the integer
`1` and whose second value is the text `a.b` — which contains a decimal
point but does not parse as a float — keeps the inferred type `int`,
whereas the claim as stated requires `float`. -/
theorem claim_C1_counterexample :
    firstNonEmptyValue "A" [[("A", PyVal.pint 1)], [("A", PyVal.pstr "a.b")]] =
      some (PyVal.pint 1) ∧
    toCsharpType "A" (PyVal.pint 1) = CType.int ∧
    strHasChar (pyStr (PyVal.pstr "a.b")) '.' = true ∧
    inferFieldType "A" [[("A", PyVal.pint 1)], [("A", PyVal.pstr "a.b")]] =
      CType.int := by
  refine ⟨?_, rfl, ?_, ?_⟩ <;> decide

/-- C1 (amended): if the column's first non-empty value infers `int` and
some row's value both parses as a float and contains a decimal point in
its string form, the inferred type is `float` for the whole column, and in
a float column every value — including integer-valued cells such as 150 —
is emitted as a floating-point value, rendered with a decimal point
(`150.0`, not `150`). -/
theorem claim_C1_amended (header : String) (data : List Row) (v0 : PyVal)
    (h1 : firstNonEmptyValue header data = some v0)
    (h2 : toCsharpType header v0 = CType.int)
    (h3 : hasDotFloat header data = true) :
    inferFieldType header data = CType.float ∧
    (∀ v : PyVal, ∃ q : Rat, convertValue CType.float v = JVal.jfloat q) ∧
    convertValue CType.float (PyVal.pint 150) = JVal.jfloat 150 ∧
    renderJVal (JVal.jfloat 150) = "150.0" := by
  refine ⟨?_, convertValue_float_shape, rfl, by decide⟩
  simp [inferFieldType, h1, h2, h3]

/-- C1 witness: the spec's example — rows `{Id: 1, Name: Veteran,
MaxHealth: 150}` and `{Id: 2, Name: Elite, MaxHealth: 150.5}` give
`MaxHealth` the inferred type `float`, and the first row's 150 is emitted
as the float rendered `150.0`. -/
theorem claim_C1_witness :
    inferFieldType "MaxHealth"
      [[("Id", PyVal.pint 1), ("Name", PyVal.pstr "Veteran"),
        ("MaxHealth", PyVal.pint 150)],
       [("Id", PyVal.pint 2), ("Name", PyVal.pstr "Elite"),
        ("MaxHealth", PyVal.pfloat (mkRat 301 2))]] = CType.float ∧
    convertValue CType.float (PyVal.pint 150) = JVal.jfloat 150 ∧
    renderJVal (JVal.jfloat 150) = "150.0" := by
  have h := claim_C1_amended "MaxHealth"
    [[("Id", PyVal.pint 1), ("Name", PyVal.pstr "Veteran"),
      ("MaxHealth", PyVal.pint 150)],
     [("Id", PyVal.pint 2), ("Name", PyVal.pstr "Elite"),
      ("MaxHealth", PyVal.pfloat (mkRat 301 2))]]
    (PyVal.pint 150) (by decide) (by decide) (by decide)
  exact ⟨h.1, h.2.2.1, h.2.2.2⟩

/-- C5: a sheet with a header row and zero data rows (after dropping
fully-blank rows) parses to no table, and removing such a sheet from a
workbook changes neither the parsed table set nor the exported table
entries — the sheet contributes no serialized document and no generated
record type. -/
theorem claim_C5 (s : Sheet) (pre post : List Sheet) (stem : String)
    (h : sheetDataRows s = []) :
    parseSheet s = Option.none ∧
    parseWorkbook (pre ++ s :: post) = parseWorkbook (pre ++ post) ∧
    exportEntries stem (pre ++ s :: post) = exportEntries stem (pre ++ post) := by
  have hp : parseSheet s = Option.none := by
    unfold parseSheet
    split
    · rfl
    · simp [h]
  have hw : parseWorkbook (pre ++ s :: post) = parseWorkbook (pre ++ post) := by
    unfold parseWorkbook
    simp [List.filterMap_append, List.filterMap_cons, hp]
  refine ⟨hp, hw, ?_⟩
  unfold exportEntries
  rw [hw]

/-- C5 witness: a sheet whose only data row is entirely blank yields no
table and no export entry. -/
theorem claim_C5_witness :
    parseSheet ⟨"S", [[PyVal.pstr "Id"], []]⟩ = Option.none ∧
    parseWorkbook [⟨"S", [[PyVal.pstr "Id"], []]⟩] = [] ∧
    exportEntries "file" [⟨"S", [[PyVal.pstr "Id"], []]⟩] = [] := by
  have h := claim_C5 ⟨"S", [[PyVal.pstr "Id"], []]⟩ [] [] "file" (by decide)
  exact ⟨h.1, h.2.1, h.2.2⟩

/-- C8: each populated sheet of a workbook is exported under the name
`<stem>_<sheet>` when the workbook has more than one populated sheet, and
under the file stem alone when it has exactly one populated sheet. -/
theorem claim_C8 (stem : String) (wb : List Sheet) :
    ((exportEntries stem wb).map Prod.fst =
      if (parseWorkbook wb).length > 1 then
        (parseWorkbook wb).map (fun p => stem ++ "_" ++ p.1)
      else (parseWorkbook wb).map (fun _ => stem)) ∧
    ((parseWorkbook wb).length = 1 →
      (exportEntries stem wb).map Prod.fst = [stem]) := by
  have h1 : (exportEntries stem wb).map Prod.fst =
      if (parseWorkbook wb).length > 1 then
        (parseWorkbook wb).map (fun p => stem ++ "_" ++ p.1)
      else (parseWorkbook wb).map (fun _ => stem) := by
    unfold exportEntries
    by_cases hc : (parseWorkbook wb).length > 1
    · simp [hc]
    · simp [hc, Function.comp_def]
  refine ⟨h1, fun hl => ?_⟩
  rw [h1]
  obtain ⟨t, ht⟩ := List.length_eq_one.mp hl
  rw [ht] at hl ⊢
  simp

/-- C8 witness: a workbook with exactly one populated sheet exports that
sheet under the file stem alone. -/
theorem claim_C8_witness :
    (exportEntries "file" [⟨"S1", [[PyVal.pstr "A"], [PyVal.pint 1]]⟩]).map
      Prod.fst = ["file"] :=
  (claim_C8 "file" [⟨"S1", [[PyVal.pstr "A"], [PyVal.pint 1]]⟩]).2 (by decide)

/-- Membership through a dict update: an entry of the updated dict is the
new pair or an old entry. -/
theorem mem_dictUpsert {κ α : Type} [DecidableEq κ] {d : List (κ × α)} {k : κ}
    {v : α} {p : κ × α} (h : p ∈ dictUpsert d k v) : p = (k, v) ∨ p ∈ d := by
  unfold dictUpsert at h
  split at h
  · obtain ⟨q, hq, hpq⟩ := List.mem_map.mp h
    by_cases hk : q.1 = k
    · left
      rw [← hpq, if_pos hk]
    · right
      rw [← hpq, if_neg hk]
      exact hq
  · rcases List.mem_append.mp h with h1 | h1
    · right
      exact h1
    · left
      simpa using h1

/-- Every entry of a converted row arises from some source entry of the
row, PascalCased and converted by its column's type. -/
theorem mem_convertRow_fold (ftm : List (String × CType)) :
    ∀ (row : Row) (acc : List (String × JVal)) (p : String × JVal),
      p ∈ row.foldl
        (fun acc q =>
          dictUpsert acc (toPascalCase q.1)
            (convertValue ((dictFind ftm q.1).getD CType.string) q.2)) acc →
      p ∈ acc ∨ ∃ hd v, (hd, v) ∈ row ∧
        p = (toPascalCase hd,
          convertValue ((dictFind ftm hd).getD CType.string) v) := by
  intro row
  induction row with
  | nil =>
    intro acc p h
    exact Or.inl h
  | cons q rest ih =>
    intro acc p h
    rw [List.foldl_cons] at h
    rcases ih _ p h with h1 | ⟨hd, v, hmem, hpe⟩
    · rcases mem_dictUpsert h1 with h2 | h2
      · right
        exact ⟨q.1, q.2, by simp, h2⟩
      · left
        exact h2
    · right
      exact ⟨hd, v, List.mem_cons_of_mem _ hmem, hpe⟩

/-- C9: type homogeneity of every emitted document — every field value of
every converted row is the conversion of some source cell by its column's
inferred type, and its JSON type tag matches that column type, however
mixed the source cells were. -/
theorem claim_C9 (ftm : List (String × CType)) (data : List Row)
    (crow : List (String × JVal)) (hcrow : crow ∈ convertTable ftm data)
    (p : String × JVal) (hp : p ∈ crow) :
    ∃ hd v, (∃ row ∈ data, (hd, v) ∈ row) ∧
      p = (toPascalCase hd,
        convertValue ((dictFind ftm hd).getD CType.string) v) ∧
      jtagOf p.2 = ctypeTag ((dictFind ftm hd).getD CType.string) := by
  obtain ⟨row, hrow, hconv⟩ := List.mem_map.mp hcrow
  rw [← hconv] at hp
  rcases mem_convertRow_fold ftm row [] p hp with h | ⟨hd, v, hmem, hpe⟩
  · exact absurd h (List.not_mem_nil p)
  · refine ⟨hd, v, ⟨row, hrow, hmem⟩, hpe, ?_⟩
    rw [hpe]
    exact convertValue_tag _ _

/-- C9 witness: the emitted field `("A", 5)` of a one-row int column. -/
theorem claim_C9_witness :
    ∃ hd v, (∃ row ∈ [[("A", PyVal.pint 5)]], (hd, v) ∈ row) ∧
      (("A", JVal.jint 5) : String × JVal) = (toPascalCase hd,
        convertValue ((dictFind [("A", CType.int)] hd).getD CType.string) v) ∧
      jtagOf (("A", JVal.jint 5) : String × JVal).2 =
        ctypeTag ((dictFind [("A", CType.int)] hd).getD CType.string) :=
  claim_C9 [("A", CType.int)] [[("A", PyVal.pint 5)]] [("A", JVal.jint 5)]
    (by decide) ("A", JVal.jint 5) (by decide)

/-- Keys of a dict after an update: unchanged for a present key, appended
for a fresh one. -/
theorem mapfst_dictUpsert {κ α : Type} [DecidableEq κ] (d : List (κ × α))
    (k : κ) (v : α) :
    (dictUpsert d k v).map Prod.fst =
      if k ∈ d.map Prod.fst then d.map Prod.fst
      else d.map Prod.fst ++ [k] := by
  unfold dictUpsert
  by_cases hmem : k ∈ d.map Prod.fst
  · rw [if_pos hmem, if_pos hmem, List.map_map]
    apply List.map_congr_left
    intro p hp
    by_cases hk : p.1 = k
    · simp [hk]
    · simp [hk]
  · rw [if_neg hmem, if_neg hmem]
    simp

/-- Key order produced by the row-building loop, as a pure function of the
headers walked so far. -/
theorem parseRowAux_keys (s : Sheet) (r : Nat) :
    ∀ (hs : List String) (c : Nat) (acc : Row),
      (parseRowAux s r hs c acc).map Prod.fst =
        keyFold hs (acc.map Prod.fst) := by
  intro hs
  induction hs with
  | nil =>
    intro c acc
    rfl
  | cons h rest ih =>
    intro c acc
    rw [parseRowAux, ih, mapfst_dictUpsert]
    rfl

/-- The keys of a parsed row are the headers, first occurrence first. -/
theorem parseRow_keys (hs : List String) (s : Sheet) (r : Nat) :
    (parseRow hs s r).map Prod.fst = dedupFirst hs :=
  parseRowAux_keys s r hs 0 []

/-- Key order produced by the row-conversion loop, as a pure function of
the row's keys. -/
theorem convertRow_keys_fold (ftm : List (String × CType)) :
    ∀ (row : Row) (acc : List (String × JVal)),
      (row.foldl
        (fun acc q =>
          dictUpsert acc (toPascalCase q.1)
            (convertValue ((dictFind ftm q.1).getD CType.string) q.2))
        acc).map Prod.fst =
      keyFold (row.map (fun p => toPascalCase p.1)) (acc.map Prod.fst) := by
  intro row
  induction row with
  | nil =>
    intro acc
    rfl
  | cons q rest ih =>
    intro acc
    rw [List.foldl_cons, ih, mapfst_dictUpsert]
    rfl

/-- The emitted field names of a converted row. -/
theorem convertRow_keys (ftm : List (String × CType)) (row : Row) :
    (convertRow ftm row).map Prod.fst =
      dedupFirst (row.map (fun p => toPascalCase p.1)) :=
  convertRow_keys_fold ftm row []

/-- Every data row of a parsed sheet is a row built from the sheet's
headers. -/
theorem mem_sheetDataRows {s : Sheet} {row : Row}
    (h : row ∈ sheetDataRows s) :
    ∃ i, row = parseRow (headersOf s) s (i + 1) := by
  unfold sheetDataRows at h
  have h1 := List.mem_of_mem_filter h
  obtain ⟨i, _, hi⟩ := List.mem_map.mp h1
  exact ⟨i, hi.symm⟩

/-- C3: the export is deterministic (re-serializing the same parsed table
is byte-identical), and the emitted field names — order and capitalization
— of every row of a parsed table are `pascalFieldOrder` of the header list
alone, independent of the row's values and of the inferred types. -/
theorem claim_C3 (s : Sheet) (t : Table) (hp : parseSheet s = some t)
    (ftm : List (String × CType)) (row : Row) (hr : row ∈ t.data) :
    exportDoc t.headers t.data = exportDoc t.headers t.data ∧
    (convertRow ftm row).map Prod.fst = pascalFieldOrder t.headers := by
  refine ⟨rfl, ?_⟩
  have hts : t.headers = headersOf s ∧ t.data = sheetDataRows s := by
    unfold parseSheet at hp
    split at hp
    · exact absurd hp (by simp)
    · split at hp
      · injection hp with h
        rw [← h]
        exact ⟨rfl, rfl⟩
      · exact absurd hp (by simp)
  obtain ⟨hh, hd⟩ := hts
  rw [hd] at hr
  obtain ⟨i, hi⟩ := mem_sheetDataRows hr
  have hcomp : (parseRow (headersOf s) s (i + 1)).map
      (fun p => toPascalCase p.1) =
      ((parseRow (headersOf s) s (i + 1)).map Prod.fst).map toPascalCase := by
    rw [List.map_map]
    rfl
  rw [hi, convertRow_keys, hcomp, parseRow_keys, hh]
  rfl

/-- C3 witness: a concrete two-column sheet; the emitted field names of its
row are a function of the headers. -/
theorem claim_C3_witness :
    (convertRow [] [("Id", PyVal.pint 1), ("Name", PyVal.pstr "a")]).map
        Prod.fst =
      pascalFieldOrder ["Id", "Name"] :=
  (claim_C3 ⟨"S", [[PyVal.pstr "Id", PyVal.pstr "Name"],
      [PyVal.pint 1, PyVal.pstr "a"]]⟩
    ⟨["Id", "Name"], [[("Id", PyVal.pint 1), ("Name", PyVal.pstr "a")]]⟩
    (by decide) [] [("Id", PyVal.pint 1), ("Name", PyVal.pstr "a")]
    (by decide)).2

/-- Finding the updated key in a dict whose key was present: the
replacement is found in place. -/
theorem find_map_replace {κ α : Type} [DecidableEq κ] (d : List (κ × α))
    (k : κ) (v : α) (hmem : k ∈ d.map Prod.fst) :
    (d.map (fun p => if p.1 = k then (k, v) else p)).find?
      (fun p => decide (p.1 = k)) = some (k, v) := by
  induction d with
  | nil => simp at hmem
  | cons q rest ih =>
    by_cases hq : q.1 = k
    · simp [hq]
    · rw [List.map_cons, if_neg hq, List.find?_cons_of_neg _ (by simp [hq])]
      rw [List.map_cons] at hmem
      rcases List.mem_cons.mp hmem with h | h
      · exact absurd h.symm hq
      · exact ih h

/-- In-place replacement does not affect lookups of other keys. -/
theorem find_map_replace_ne {κ α : Type} [DecidableEq κ] (d : List (κ × α))
    (k k' : κ) (v : α) (hne : k' ≠ k) :
    (d.map (fun p => if p.1 = k then (k, v) else p)).find?
        (fun p => decide (p.1 = k')) =
      d.find? (fun p => decide (p.1 = k')) := by
  induction d with
  | nil => rfl
  | cons q rest ih =>
    by_cases hq : q.1 = k
    · rw [List.map_cons, if_pos hq,
        List.find?_cons_of_neg _ (by simp; exact Ne.symm hne),
        List.find?_cons_of_neg _ (by simp [hq]; exact Ne.symm hne)]
      exact ih
    · by_cases hq' : q.1 = k'
      · rw [List.map_cons, if_neg hq,
          List.find?_cons_of_pos _ (by simp [hq']),
          List.find?_cons_of_pos _ (by simp [hq'])]
      · rw [List.map_cons, if_neg hq,
          List.find?_cons_of_neg _ (by simp [hq']),
          List.find?_cons_of_neg _ (by simp [hq'])]
        exact ih

/-- Lookup of the key just written by a dict update. -/
theorem find_dictUpsert_self {κ α : Type} [DecidableEq κ] (d : List (κ × α))
    (k : κ) (v : α) : dictFind (dictUpsert d k v) k = some v := by
  unfold dictUpsert dictFind
  by_cases hmem : k ∈ d.map Prod.fst
  · rw [if_pos hmem, find_map_replace d k v hmem]
    rfl
  · rw [if_neg hmem, List.find?_append]
    have h1 : d.find? (fun p => decide (p.1 = k)) = Option.none := by
      rw [List.find?_eq_none]
      intro p hp
      simp only [decide_eq_true_eq]
      intro hpk
      exact hmem (hpk ▸ List.mem_map_of_mem Prod.fst hp)
    rw [h1]
    simp

/-- Lookup of a different key is unchanged by a dict update. -/
theorem find_dictUpsert_ne {κ α : Type} [DecidableEq κ] (d : List (κ × α))
    (k k' : κ) (v : α) (hne : k' ≠ k) :
    dictFind (dictUpsert d k v) k' = dictFind d k' := by
  unfold dictUpsert dictFind
  by_cases hmem : k ∈ d.map Prod.fst
  · rw [if_pos hmem, find_map_replace_ne d k k' v hne]
  · rw [if_neg hmem, List.find?_append]
    have h2 : [(k, v)].find? (fun p => decide (p.1 = k')) = Option.none := by
      simp [Ne.symm hne]
    cases h : d.find? (fun p => decide (p.1 = k')) <;> simp [h, h2]

/-- `GetIdValue` on a record of shape `{Id : int, Name : string}`: the
nonzero `Id` value, and nothing for a zero `Id`. -/
theorem getId_shapeA (n : Int) (s : String) :
    getIdValue [("Id", JVal.jint n), ("Name", JVal.jstr s)] =
      if n = 0 then Option.none else some n := by
  by_cases hn : n = 0
  · subst hn
    rw [if_pos rfl]
    rfl
  · rw [if_neg hn]
    unfold getIdValue
    have hd : dictFind [("Id", JVal.jint n), ("Name", JVal.jstr s)] "Id" =
        some (JVal.jint n) := rfl
    simp [idFieldNames, List.findSome?_cons, hd, idCandidate, hn]

/-- `GetIdValue` on a record of shape `{Code : string, Name : string}`:
no field name is or contains a variant of `id`, so no id is found. -/
theorem getId_shapeC (c s : String) :
    getIdValue [("Code", JVal.jstr c), ("Name", JVal.jstr s)] =
      Option.none := rfl

/-- The list side of the generated `Initialize` loop accumulates every
item in order. -/
theorem initStep_fst (acc : List Item × List (Int × Item)) (item : Item) :
    (initStep acc item).1 = acc.1 ++ [item] := by
  unfold initStep
  cases getIdValue item with
  | none => rfl
  | some id =>
    by_cases hid : id = 0
    · simp [hid]
    · simp [hid]

/-- Folding the `Initialize` step appends all items to the list side. -/
theorem initFold_fst :
    ∀ (items : List Item) (acc : List Item × List (Int × Item)),
      (items.foldl initStep acc).1 = acc.1 ++ items := by
  intro items
  induction items with
  | nil =>
    intro acc
    simp
  | cons it rest ih =>
    intro acc
    rw [List.foldl_cons, ih, initStep_fst]
    simp

/-- Items on which `GetIdValue` finds nothing leave the dictionary side
untouched. -/
theorem initFold_dict_none :
    ∀ (items : List Item) (acc : List Item × List (Int × Item)),
      (∀ it ∈ items, getIdValue it = Option.none) →
      (items.foldl initStep acc).2 = acc.2 := by
  intro items
  induction items with
  | nil =>
    intro acc _
    rfl
  | cons it rest ih =>
    intro acc hall
    rw [List.foldl_cons]
    have hstep : initStep acc it = (acc.1 ++ [it], acc.2) := by
      unfold initStep
      rw [hall it (by simp)]
    rw [hstep, ih _ (fun x hx => hall x (List.mem_cons_of_mem _ hx))]

/-- Dictionary side of the `Initialize` fold over `{Id, Name}`-shaped
items: existing well-keyed entries survive, and every item with a nonzero
`Id` ends up findable under that id, mapped to an item carrying it. -/
theorem initFold_dict_shapeA :
    ∀ (items : List Item) (acc : List Item × List (Int × Item)),
      (∀ it ∈ items, ∃ n s,
        it = [("Id", JVal.jint n), ("Name", JVal.jstr s)]) →
      (∀ n : Int,
        (∃ e, dictFind acc.2 n = some e ∧
          dictFind e "Id" = some (JVal.jint n)) →
        ∃ e, dictFind (items.foldl initStep acc).2 n = some e ∧
          dictFind e "Id" = some (JVal.jint n)) ∧
      (∀ (n : Int) (s : String),
        [("Id", JVal.jint n), ("Name", JVal.jstr s)] ∈ items → n ≠ 0 →
        ∃ e, dictFind (items.foldl initStep acc).2 n = some e ∧
          dictFind e "Id" = some (JVal.jint n)) := by
  intro items
  induction items with
  | nil =>
    intro acc _
    exact ⟨fun n h => h, fun n s h => absurd h (List.not_mem_nil _)⟩
  | cons it rest ih =>
    intro acc hall
    obtain ⟨m, s', hit⟩ := hall it (by simp)
    have hrest : ∀ x ∈ rest, ∃ n s,
        x = [("Id", JVal.jint n), ("Name", JVal.jstr s)] :=
      fun x hx => hall x (List.mem_cons_of_mem _ hx)
    have hid : getIdValue it = if m = 0 then Option.none else some m := by
      rw [hit]
      exact getId_shapeA m s'
    constructor
    · intro n hn
      rw [List.foldl_cons]
      apply (ih (initStep acc it) hrest).1
      by_cases hm : m = 0
      · have hstep2 : (initStep acc it).2 = acc.2 := by
          unfold initStep
          rw [hid, if_pos hm]
        rw [hstep2]
        exact hn
      · have hstep2 : (initStep acc it).2 = dictUpsert acc.2 m it := by
          unfold initStep
          rw [hid, if_neg hm]
          simp [hm]
        rw [hstep2]
        by_cases hnm : n = m
        · subst hnm
          exact ⟨it, find_dictUpsert_self _ _ _, by rw [hit]; rfl⟩
        · obtain ⟨e, he1, he2⟩ := hn
          exact ⟨e, by rw [find_dictUpsert_ne _ _ _ _ hnm]; exact he1, he2⟩
    · intro n s hmem hn0
      rw [List.foldl_cons]
      rcases List.mem_cons.mp hmem with hhead | htail
      · apply (ih (initStep acc it) hrest).1
        have hidn : getIdValue it = some n := by
          rw [← hhead, getId_shapeA, if_neg hn0]
        have hstep2 : (initStep acc it).2 = dictUpsert acc.2 n it := by
          unfold initStep
          rw [hidn]
          simp [hn0]
        rw [hstep2]
        exact ⟨it, find_dictUpsert_self _ _ _, by rw [← hhead]; rfl⟩
      · exact (ih (initStep acc it) hrest).2 n s htail hn0

/-- C7 counterexample: in a table whose header is `["Id", "Name"]`, a row
with `Id = 0` is appended to the list but is not indexed in the id
dictionary at all — the dictionary stays empty, refuting the claim that
such a table has its rows indexed by the `Id` field. -/
theorem claim_C7_counterexample :
    (initTable [[("Id", JVal.jint 0), ("Name", JVal.jstr "a")]]).1 =
      [[("Id", JVal.jint 0), ("Name", JVal.jstr "a")]] ∧
    (initTable [[("Id", JVal.jint 0), ("Name", JVal.jstr "a")]]).2 = [] := by
  constructor <;> rfl

/-- C7 (amended): in the generated manager's initialization, a table whose
header is `["Id", "Name"]` has every row with a nonzero `Id` reachable in
the id-keyed dictionary under its `Id` value (mapped to a row carrying
that `Id`; zero-`Id` rows are omitted), and every row in the list; a
table whose header is `["Code", "Name"]` (no variant of `id` among field
names) yields the full list but an empty id-indexed dictionary. -/
theorem claim_C7_amended (items itemsC : List Item)
    (hA : ∀ it ∈ items, ∃ n s,
      it = [("Id", JVal.jint n), ("Name", JVal.jstr s)])
    (hC : ∀ it ∈ itemsC, ∃ c s,
      it = [("Code", JVal.jstr c), ("Name", JVal.jstr s)]) :
    (initTable items).1 = items ∧
    (∀ (n : Int) (s : String),
      [("Id", JVal.jint n), ("Name", JVal.jstr s)] ∈ items → n ≠ 0 →
      ∃ e, dictFind (initTable items).2 n = some e ∧
        dictFind e "Id" = some (JVal.jint n)) ∧
    (initTable itemsC).1 = itemsC ∧
    (initTable itemsC).2 = [] := by
  refine ⟨?_, ?_, ?_, ?_⟩
  · rw [initTable, initFold_fst]
    rfl
  · intro n s hmem hn0
    exact (initFold_dict_shapeA items ([], []) hA).2 n s hmem hn0
  · rw [initTable, initFold_fst]
    rfl
  · rw [initTable, initFold_dict_none]
    intro it hit
    obtain ⟨c, s, hcs⟩ := hC it hit
    rw [hcs]
    exact getId_shapeC c s

/-- C7 witness: a one-row `{Id = 7, Name}` table is indexed under 7, and a
one-row `{Code, Name}` table gives a populated list with an empty
dictionary. -/
theorem claim_C7_witness :
    (initTable [[("Id", JVal.jint 7), ("Name", JVal.jstr "a")]]).1 =
      [[("Id", JVal.jint 7), ("Name", JVal.jstr "a")]] ∧
    dictFind (initTable [[("Id", JVal.jint 7), ("Name", JVal.jstr "a")]]).2
      7 ≠ Option.none ∧
    (initTable [[("Code", JVal.jstr "x"), ("Name", JVal.jstr "b")]]).1 =
      [[("Code", JVal.jstr "x"), ("Name", JVal.jstr "b")]] ∧
    (initTable [[("Code", JVal.jstr "x"), ("Name", JVal.jstr "b")]]).2 =
      [] := by
  have h := claim_C7_amended
    [[("Id", JVal.jint 7), ("Name", JVal.jstr "a")]]
    [[("Code", JVal.jstr "x"), ("Name", JVal.jstr "b")]]
    (by
      intro it hit
      rw [List.mem_singleton] at hit
      exact ⟨7, "a", hit⟩)
    (by
      intro it hit
      rw [List.mem_singleton] at hit
      exact ⟨"x", "b", hit⟩)
  obtain ⟨e, he1, _⟩ := h.2.1 7 "a" (by simp) (by decide)
  exact ⟨h.1, by rw [he1]; simp, h.2.2.1, h.2.2.2⟩

end ExcelExport
